import Mathlib

/-!
Verification of the kernelflinger fastboot server against its
natural-language specification.

The definitions below are shallow embeddings of the C functions in
`libfastboot/fastboot.c`, `libfastboot/flash.c`, `libfastboot/hashes.c`
and `libkernelflinger/security.c`.  Machine integers are modelled as
`Nat` with an explicit `% 2^64` where 64-bit overflow matters.
External collaborators (transport, disk I/O, OpenSSL, allocation) are
modelled as oracle parameters recorded in environment structures, and
every observable effect (reply frames, flash-engine invocations, disk
writes) is returned as data so that theorems can speak about it.
-/

set_option maxRecDepth 8192

deriving instance DecidableEq for Except

namespace Kernelflinger

/-- EFI status codes used by the embedded functions (`EFI_SUCCESS` and the
error codes that appear in the modelled code paths). -/
inductive EfiStatus
  | success
  | invalidParameter
  | unsupported
  | outOfResources
  | accessDenied
  | bufferTooSmall
  | deviceError
  | notFound
  deriving DecidableEq, Repr

/-- `EFI_ERROR(ret)`: every status other than `EFI_SUCCESS` is an error. -/
def EfiStatus.isError : EfiStatus → Bool
  | .success => false
  | _ => true

/-- Modelled from the spec: the device lock state enumeration
(`LOCKED`, `UNLOCKED`) from `vars.h`, which is not under `src/`.  The
spec describes the lock state as `LOCKED`/`UNLOCKED` with commands gated
by a minimum state, compared numerically (`min_state > current`). -/
inductive DeviceState
  | LOCKED
  | UNLOCKED
  deriving DecidableEq, Repr

/-- Modelled from the spec: the numeric value of the lock-state enum used
by the `cmd->min_state > get_current_state()` comparison; `LOCKED` is the
lowest state. -/
def DeviceState.rank : DeviceState → Nat
  | .LOCKED => 0
  | .UNLOCKED => 1

/-- Modelled from the spec: `get_current_state_string()` (from `vars.c`,
not under `src/`).  Scenario S3 of the spec shows the `LOCKED` state
printing as `LOCKED` inside the prohibited-command failure message. -/
def get_current_state_string : DeviceState → String
  | .LOCKED => "LOCKED"
  | .UNLOCKED => "UNLOCKED"

/-- The four-byte reply codes of the fastboot wire protocol. -/
inductive ReplyCode
  | OKAY
  | FAIL
  | INFO
  | DATA
  deriving DecidableEq, Repr

/-- One 64-byte reply frame: a 4-byte code plus at most 60 bytes of
payload (NUL terminated, hence at most 59 payload characters). -/
structure Reply where
  code : ReplyCode
  payload : String
  deriving DecidableEq, Repr

/-- `fastboot_build_ack_msg`: copy the 4-byte code then `vsnprintf` the
payload into the remaining `INFO_PAYLOAD = 60` bytes, truncating to 59
characters plus the terminating NUL. -/
def fastboot_build_ack_msg (code : ReplyCode) (s : String) : Reply :=
  { code := code, payload := s.take 59 }

/-- `fastboot_fail`: emit a terminal `FAIL` frame. -/
def fastboot_fail_msg (s : String) : Reply :=
  fastboot_build_ack_msg ReplyCode.FAIL s

/-- `fastboot_okay`: emit a terminal `OKAY` frame. -/
def fastboot_okay_msg (s : String) : Reply :=
  fastboot_build_ack_msg ReplyCode.OKAY s

/-- `fastboot_info`: emit a buffered `INFO` frame. -/
def fastboot_info_msg (s : String) : Reply :=
  fastboot_build_ack_msg ReplyCode.INFO s

/-- Modelled from the spec: `ACTION_AUTHORIZATION` (from
`authenticated_action.h`, not under `src/`), the one whitelisted flash
label, which the spec names `authorization`. -/
def ACTION_AUTHORIZATION : String := "authorization"

/-- `flash_locked_whitelist` from `fastboot.c`: contains
`ACTION_AUTHORIZATION` exactly when `BOOTLOADER_POLICY` is compiled in
(the `policy` flag), and is NULL-terminated (empty otherwise). -/
def flash_locked_whitelist (policy : Bool) : List String :=
  if policy then [ACTION_AUTHORIZATION] else []

/-- `is_in_white_list`: walk the NULL-terminated list comparing with
`strcmp`. -/
def is_in_white_list (key : String) (white_list : List String) : Bool :=
  white_list.any (fun w => key == w)

/-- Oracle environment for `cmd_flash`: the current lock state, whether
`BOOTLOADER_POLICY` is compiled in, and the results of the external
calls (`stra_to_str` allocation, the flash engine, and
`refresh_partition_var`). -/
structure FlashCmdEnv where
  state : DeviceState
  policy : Bool
  labelConvOk : Bool
  flashRet : String → EfiStatus
  flashRefreshFlag : String → Bool
  refreshVarRet : EfiStatus

/-- `cmd_flash` from `fastboot.c`: returns the reply frames emitted and
the list of labels passed to the flash engine `flash()` (empty when the
engine is never invoked). -/
def cmd_flash (env : FlashCmdEnv) (argv : List String) :
    List Reply × List String :=
  match argv with
  | [_, label] =>
    if env.state = DeviceState.LOCKED &&
       !(is_in_white_list label (flash_locked_whitelist env.policy)) then
      ([fastboot_fail_msg ("Prohibited command in " ++
          get_current_state_string env.state ++ " state.")], [])
    else if !env.labelConvOk then
      ([fastboot_fail_msg "Allocation error"], [])
    else
      let ret := env.flashRet label
      if ret.isError then
        ([fastboot_fail_msg "Flash failure"], [label])
      else if env.flashRefreshFlag label && (env.refreshVarRet).isError then
        ([fastboot_fail_msg "Failed to publish partition variables"], [label])
      else
        ([fastboot_okay_msg ""], [label])
  | _ => ([fastboot_fail_msg "Invalid parameter"], [])

/-- A registered fastboot command: name and minimum required lock state
(the handler itself is identified by the command record). -/
structure FastbootCmd where
  name : String
  min_state : DeviceState
  deriving DecidableEq, Repr

/-- `get_cmd`: exact-match lookup, first match in the list. -/
def get_cmd (list : List FastbootCmd) (name : String) : Option FastbootCmd :=
  list.find? (fun c => c.name == name)

/-- `fastboot_run_cmd` from `fastboot.c`: returns the reply frames
emitted by the dispatcher itself, plus `some (cmd, argv)` when the
registered handler is invoked with the parsed argv (the handler's own
effects are outside this function). -/
def fastboot_run_cmd (list : List FastbootCmd) (cur : DeviceState)
    (name : String) (argv : List String) :
    List Reply × Option (FastbootCmd × List String) :=
  match get_cmd list name with
  | none => ([fastboot_fail_msg "unknown command"], none)
  | some cmd =>
    if cmd.min_state.rank > cur.rank then
      ([fastboot_fail_msg ("command not allowed in " ++
          get_current_state_string cur ++ " state")], none)
    else
      ([], some (cmd, argv))

/-- C1: while `LOCKED`, a `flash` command whose label is not in the
compiled-in whitelist (only `authorization`, and only when bootloader
policy is enabled) replies `FAIL Prohibited command in LOCKED state.`
and never invokes the flash engine. -/
theorem c1_cmd_flash_locked_prohibited (env : FlashCmdEnv)
    (cmd label : String)
    (hlock : env.state = DeviceState.LOCKED)
    (hwl : ¬ (env.policy = true ∧ label = ACTION_AUTHORIZATION)) :
    cmd_flash env [cmd, label] =
      ([Reply.mk ReplyCode.FAIL "Prohibited command in LOCKED state."], []) := by
  have hwl' : is_in_white_list label (flash_locked_whitelist env.policy) = false := by
    cases hp : env.policy
    · simp [flash_locked_whitelist, is_in_white_list]
    · simp only [flash_locked_whitelist, if_pos, is_in_white_list,
        List.any_cons, List.any_nil, Bool.or_false, beq_iff_eq,
        decide_eq_false_iff_not]
      rw [beq_eq_false_iff_ne]
      exact fun h => hwl ⟨hp, h⟩
  simp [cmd_flash, hlock, hwl', fastboot_fail_msg, fastboot_build_ack_msg,
    get_current_state_string]; decide

/-- Witness for C1 at a concrete input: locked state, policy disabled,
label `boot`. -/
theorem c1_cmd_flash_locked_prohibited_witness :
    cmd_flash
      { state := DeviceState.LOCKED, policy := false, labelConvOk := true,
        flashRet := fun _ => EfiStatus.success,
        flashRefreshFlag := fun _ => false,
        refreshVarRet := EfiStatus.success }
      ["flash", "boot"] =
      ([Reply.mk ReplyCode.FAIL "Prohibited command in LOCKED state."], []) := by
  exact c1_cmd_flash_locked_prohibited _ "flash" "boot" rfl (by simp)

/-- C2: the dispatcher replies `FAIL unknown command` (and runs no
handler) for unregistered names, `FAIL command not allowed in <state>`
(and runs no handler) when the command's `min_state` exceeds the current
lock state, and otherwise invokes the registered handler with the parsed
argv. -/
theorem c2_fastboot_run_cmd_dispatch (list : List FastbootCmd)
    (cur : DeviceState) (name : String) (argv : List String) :
    (get_cmd list name = none →
      fastboot_run_cmd list cur name argv =
        ([Reply.mk ReplyCode.FAIL "unknown command"], none)) ∧
    (∀ cmd, get_cmd list name = some cmd → cmd.min_state.rank > cur.rank →
      fastboot_run_cmd list cur name argv =
        ([Reply.mk ReplyCode.FAIL ("command not allowed in " ++
            get_current_state_string cur ++ " state")], none)) ∧
    (∀ cmd, get_cmd list name = some cmd → ¬ cmd.min_state.rank > cur.rank →
      fastboot_run_cmd list cur name argv = ([], some (cmd, argv))) := by
  refine ⟨?_, ?_, ?_⟩
  · intro h
    unfold fastboot_run_cmd
    rw [h]
    dsimp only
    simp [fastboot_fail_msg, fastboot_build_ack_msg]; decide
  · intro cmd h hgt
    unfold fastboot_run_cmd
    rw [h]
    dsimp only
    rw [if_pos hgt]
    cases cur <;>
      simp [fastboot_fail_msg, fastboot_build_ack_msg, get_current_state_string] <;>
      decide
  · intro cmd h hle
    unfold fastboot_run_cmd
    rw [h]
    dsimp only
    rw [if_neg hle]

/-- Witness for C2 at concrete inputs: an empty registry rejects
`frobnicate`; a registry with `erase` (min state `UNLOCKED`) rejects it
while `LOCKED` and runs it while `UNLOCKED`. -/
theorem c2_fastboot_run_cmd_dispatch_witness :
    fastboot_run_cmd [] DeviceState.LOCKED "frobnicate" ["frobnicate"] =
      ([Reply.mk ReplyCode.FAIL "unknown command"], none) ∧
    fastboot_run_cmd [⟨"erase", DeviceState.UNLOCKED⟩] DeviceState.LOCKED
        "erase" ["erase", "userdata"] =
      ([Reply.mk ReplyCode.FAIL "command not allowed in LOCKED state"], none) ∧
    fastboot_run_cmd [⟨"erase", DeviceState.UNLOCKED⟩] DeviceState.UNLOCKED
        "erase" ["erase", "userdata"] =
      ([], some (⟨"erase", DeviceState.UNLOCKED⟩, ["erase", "userdata"])) := by
  refine ⟨?_, ?_, ?_⟩
  · exact (c2_fastboot_run_cmd_dispatch [] DeviceState.LOCKED "frobnicate"
      ["frobnicate"]).1 (by decide)
  · exact (c2_fastboot_run_cmd_dispatch [⟨"erase", DeviceState.UNLOCKED⟩]
      DeviceState.LOCKED "erase" ["erase", "userdata"]).2.1
      ⟨"erase", DeviceState.UNLOCKED⟩ (by decide) (by decide)
  · exact (c2_fastboot_run_cmd_dispatch [⟨"erase", DeviceState.UNLOCKED⟩]
      DeviceState.UNLOCKED "erase" ["erase", "userdata"]).2.2
      ⟨"erase", DeviceState.UNLOCKED⟩ (by decide) (by decide)

/-- The protocol states of the fastboot state machine
(`enum fastboot_states`). -/
inductive FbState
  | OFFLINE
  | COMMAND
  | COMPLETE
  | START_DOWNLOAD
  | DOWNLOAD
  | TX
  | STOPPING
  | STOPPED
  | ERROR
  deriving DecidableEq, Repr

/-- Value of a hexadecimal digit character, `none` for any other
character. -/
def hexVal (c : Char) : Option Nat :=
  if '0' ≤ c ∧ c ≤ '9' then some (c.toNat - '0'.toNat)
  else if 'a' ≤ c ∧ c ≤ 'f' then some (c.toNat - 'a'.toNat + 10)
  else if 'A' ≤ c ∧ c ≤ 'F' then some (c.toNat - 'A'.toNat + 10)
  else none

/-- Accumulate leading hexadecimal digits, stopping at the first
non-digit (the `strtoul` scan loop). -/
def parseHexDigits : List Char → Nat → Nat
  | [], acc => acc
  | c :: cs, acc =>
    match hexVal c with
    | some v => parseHexDigits cs (acc * 16 + v)
    | none => acc

/-- Model of `strtoul(str, NULL, 16)` on a command token: an optional
`0x`/`0X` marker followed by hexadecimal digits; no digits parse as 0. -/
def strtoul16 (s : String) : Nat :=
  match s.data with
  | '0' :: 'x' :: cs => parseHexDigits cs 0
  | '0' :: 'X' :: cs => parseHexDigits cs 0
  | cs => parseHexDigits cs 0

/-- `snprintf("DATA%08x", n)` payload: `n` in lowercase hexadecimal,
zero-padded to eight digits. -/
def hex8 (n : Nat) : String :=
  let ds := Nat.toDigits 16 n
  String.mk (List.replicate (8 - ds.length) '0' ++ ds)

/-- 2^32, the modulus of the C `unsigned` globals `dlsize` and
`bufsize`. -/
def UINT32_MOD : Nat := 2 ^ 32

/-- The download-buffer globals of `fastboot.c`: whether `dlbuffer` is
non-NULL, and the `dlsize` / `bufsize` counters. -/
structure DownloadState where
  dlbuffer : Bool
  dlsize : Nat
  bufsize : Nat
  deriving DecidableEq, Repr

/-- Observable outcome of one `cmd_download` call: emitted frames, the
new buffer globals, whether the old buffer was freed, whether a new one
was allocated, and the machine state explicitly set by the handler
(`START_DOWNLOAD`, or `ERROR` on transport failure). -/
structure DownloadResult where
  replies : List Reply
  st : DownloadState
  freed : Bool
  allocated : Bool
  fbstate : Option FbState
  deriving DecidableEq, Repr

/-- `cmd_download` from `fastboot.c`.  `MAX_DOWNLOAD_SIZE` is the
compile-time cap; `allocOk` is the `AllocatePool` oracle and
`transportOk` the `transport_write` oracle. -/
def cmd_download (MAX_DOWNLOAD_SIZE : Nat) (allocOk transportOk : Bool)
    (st : DownloadState) (argv : List String) : DownloadResult :=
  match argv with
  | [_, arg] =>
    let newdlsize := strtoul16 arg
    if newdlsize = 0 then
      { replies := [fastboot_fail_msg "no data to download"], st := st,
        freed := false, allocated := false, fbstate := none }
    else if newdlsize > MAX_DOWNLOAD_SIZE then
      { replies := [fastboot_fail_msg "data too large"], st := st,
        freed := false, allocated := false, fbstate := none }
    else if newdlsize > st.bufsize then
      if allocOk then
        { replies := [Reply.mk ReplyCode.DATA (hex8 (newdlsize % UINT32_MOD))],
          st := { dlbuffer := true, dlsize := newdlsize % UINT32_MOD,
                  bufsize := newdlsize % UINT32_MOD },
          freed := st.dlbuffer, allocated := true,
          fbstate := some (if transportOk then FbState.START_DOWNLOAD
                           else FbState.ERROR) }
      else
        { replies := [fastboot_fail_msg "Memory allocation failure"],
          st := { dlbuffer := false, dlsize := 0, bufsize := 0 },
          freed := st.dlbuffer, allocated := false, fbstate := none }
    else
      { replies := [Reply.mk ReplyCode.DATA (hex8 (newdlsize % UINT32_MOD))],
        st := { st with dlsize := newdlsize % UINT32_MOD },
        freed := false, allocated := false,
        fbstate := some (if transportOk then FbState.START_DOWNLOAD
                         else FbState.ERROR) }
  | _ =>
    { replies := [fastboot_fail_msg "Invalid parameter"], st := st,
      freed := false, allocated := false, fbstate := none }

/-- C5: `cmd_download` rejects a parsed size of 0 or one above
`MAX_DOWNLOAD_SIZE` with a `FAIL` and untouched globals; it frees and
reallocates only when the request exceeds the current capacity, so the
buffer capacity grows to the largest request seen; an allocation failure
replies `FAIL Memory allocation failure` and zeroes `dlsize` and
`bufsize`; otherwise it replies `DATA%08x` and enters `START_DOWNLOAD`. -/
theorem c5_cmd_download (M : Nat) (allocOk transportOk : Bool)
    (st : DownloadState) (c arg : String) (n : Nat)
    (hn : strtoul16 arg = n) (hM : M < UINT32_MOD) :
    ((n = 0 ∨ n > M) →
      (cmd_download M allocOk transportOk st [c, arg]).replies.map Reply.code
          = [ReplyCode.FAIL] ∧
      (cmd_download M allocOk transportOk st [c, arg]).st = st ∧
      (cmd_download M allocOk transportOk st [c, arg]).allocated = false) ∧
    (((cmd_download M allocOk transportOk st [c, arg]).freed = true ∨
      (cmd_download M allocOk transportOk st [c, arg]).allocated = true) →
      n > st.bufsize) ∧
    (0 < n → n ≤ M → allocOk = true →
      (cmd_download M allocOk transportOk st [c, arg]).st.bufsize
          = max st.bufsize n) ∧
    (0 < n → n ≤ M → n > st.bufsize → allocOk = false →
      (cmd_download M allocOk transportOk st [c, arg]).replies
          = [Reply.mk ReplyCode.FAIL "Memory allocation failure"] ∧
      (cmd_download M allocOk transportOk st [c, arg]).st.dlsize = 0 ∧
      (cmd_download M allocOk transportOk st [c, arg]).st.bufsize = 0) ∧
    (0 < n → n ≤ M → (n ≤ st.bufsize ∨ allocOk = true) → transportOk = true →
      (cmd_download M allocOk transportOk st [c, arg]).replies
          = [Reply.mk ReplyCode.DATA (hex8 n)] ∧
      (cmd_download M allocOk transportOk st [c, arg]).st.dlsize = n ∧
      (cmd_download M allocOk transportOk st [c, arg]).fbstate
          = some FbState.START_DOWNLOAD) := by
  simp only [cmd_download, hn]
  refine ⟨?_, ?_, ?_, ?_, ?_⟩
  · rintro (h0 | hbig)
    · simp only [if_pos h0]
      refine ⟨by decide, ?_, ?_⟩ <;> trivial
    · have h0 : ¬ n = 0 := by omega
      simp only [if_neg h0, if_pos hbig]
      refine ⟨by decide, ?_, ?_⟩ <;> trivial
  · intro h
    by_cases h0 : n = 0
    · simp only [if_pos h0] at h
      rcases h with h | h <;> simp at h
    by_cases hbig : n > M
    · simp only [if_neg h0, if_pos hbig] at h
      rcases h with h | h <;> simp at h
    by_cases hgrow : n > st.bufsize
    · exact hgrow
    · simp only [if_neg h0, if_neg hbig, if_neg hgrow] at h
      rcases h with h | h <;> simp at h
  · intro hpos hle halloc
    have h0 : ¬ n = 0 := by omega
    have hbig : ¬ n > M := by omega
    have hmod : n % UINT32_MOD = n := Nat.mod_eq_of_lt (by omega)
    by_cases hgrow : n > st.bufsize
    · simp only [if_neg h0, if_neg hbig, if_pos hgrow, if_pos halloc, hmod]
      omega
    · simp only [if_neg h0, if_neg hbig, if_neg hgrow]
      omega
  · intro hpos hle hgrow halloc
    have h0 : ¬ n = 0 := by omega
    have hbig : ¬ n > M := by omega
    simp only [if_neg h0, if_neg hbig, if_pos hgrow, halloc,
      if_neg Bool.false_ne_true]
    refine ⟨by decide, ?_, ?_⟩ <;> trivial
  · intro hpos hle hok htr
    have h0 : ¬ n = 0 := by omega
    have hbig : ¬ n > M := by omega
    have hmod : n % UINT32_MOD = n := Nat.mod_eq_of_lt (by omega)
    by_cases hgrow : n > st.bufsize
    · have halloc : allocOk = true := by
        rcases hok with h | h
        · omega
        · exact h
      simp only [if_neg h0, if_neg hbig, if_pos hgrow, if_pos halloc, hmod, htr,
        if_pos rfl]
      refine ⟨?_, ?_, ?_⟩ <;> trivial
    · simp only [if_neg h0, if_neg hbig, if_neg hgrow, hmod, htr, if_pos rfl]
      refine ⟨?_, ?_, ?_⟩ <;> trivial

/-- Witness for C5 at concrete inputs: size `0x1000`, cap `0x10000000`,
an empty buffer, allocation and transport succeeding. -/
theorem c5_cmd_download_witness :
    (0 < 4096 ∧ 4096 ≤ 268435456) ∧
    (cmd_download 268435456 true true
        { dlbuffer := false, dlsize := 0, bufsize := 0 }
        ["download", "1000"]).replies
      = [Reply.mk ReplyCode.DATA (hex8 4096)] ∧
    (cmd_download 268435456 true true
        { dlbuffer := false, dlsize := 0, bufsize := 0 }
        ["download", "1000"]).st.dlsize = 4096 ∧
    (cmd_download 268435456 true true
        { dlbuffer := false, dlsize := 0, bufsize := 0 }
        ["download", "1000"]).fbstate = some FbState.START_DOWNLOAD := by
  refine ⟨by decide, ?_⟩
  exact (c5_cmd_download 268435456 true true
      { dlbuffer := false, dlsize := 0, bufsize := 0 } "download" "1000" 4096
      (by decide) (by decide)).2.2.2.2
    (by decide) (by decide) (Or.inr rfl) rfl

/-- One `strtok_r` step: skip leading delimiters; return `none` if
nothing is left, otherwise the token up to the next delimiter and the
remainder past the single delimiter that terminated the token. -/
def strtok (delims : List Char) (s : List Char) :
    Option (List Char × List Char) :=
  let s1 := s.dropWhile (fun c => delims.contains c)
  if s1.isEmpty then none
  else
    let tok := s1.takeWhile (fun c => !delims.contains c)
    some (tok, s1.drop (tok.length + 1))

theorem strtok_rest_length {delims : List Char} {s tok rest : List Char}
    (h : strtok delims s = some (tok, rest)) : rest.length < s.length := by
  simp only [strtok] at h
  by_cases he : (s.dropWhile (fun c => delims.contains c)).isEmpty
  · rw [if_pos he] at h
    exact absurd h (by simp)
  · rw [if_neg he] at h
    simp only [Option.some.injEq, Prod.mk.injEq] at h
    obtain ⟨htok, hrest⟩ := h
    have h1 : 1 ≤ (s.dropWhile (fun c => delims.contains c)).length := by
      cases hd : s.dropWhile (fun c => delims.contains c) with
      | nil => rw [hd] at he; simp at he
      | cons a t => simp
    have h2 : (s.dropWhile (fun c => delims.contains c)).length ≤ s.length :=
      (List.dropWhile_sublist (fun c => delims.contains c)).length_le
    subst hrest
    rw [List.length_drop]
    omega

/-- The sequence of space-separated `strtok` tokens remaining in a
buffer, computed with a structural fuel of `length + 1` so that it
evaluates. -/
def spaceTokensAux : Nat → List Char → List (List Char)
  | 0, _ => []
  | Nat.succ fuel, s =>
    match strtok [' '] s with
    | none => []
    | some (tok, rest) => tok :: spaceTokensAux fuel rest

/-- All space-separated tokens left in `s` (the unbounded `strtok`
iteration). -/
def spaceTokens (s : List Char) : List (List Char) :=
  spaceTokensAux (s.length + 1) s

theorem spaceTokensAux_congr : ∀ f₁ f₂ s, s.length < f₁ → s.length < f₂ →
    spaceTokensAux f₁ s = spaceTokensAux f₂ s := by
  intro f₁
  induction f₁ with
  | zero => intro f₂ s h₁ _; omega
  | succ f ih =>
    intro f₂ s h₁ h₂
    cases f₂ with
    | zero => omega
    | succ f' =>
      simp only [spaceTokensAux]
      cases hs : strtok [' '] s with
      | none => rfl
      | some p =>
        obtain ⟨tok, rest⟩ := p
        have hlt := strtok_rest_length hs
        simp only []
        rw [ih f' rest (by omega) (by omega)]

theorem spaceTokens_unfold (s : List Char) :
    spaceTokens s =
      match strtok [' '] s with
      | none => []
      | some (tok, rest) => tok :: spaceTokens rest := by
  unfold spaceTokens
  conv =>
    lhs
    rw [spaceTokensAux]
  cases hs : strtok [' '] s with
  | none => rfl
  | some p =>
    obtain ⟨tok, rest⟩ := p
    have hlt := strtok_rest_length hs
    simp only []
    rw [spaceTokensAux_congr s.length (rest.length + 1) rest (by omega) (by omega)]

/-- The token list the parser conceptually sees: the first token split
on `:` or space, then the space-separated tokens of the remainder. -/
def all_tokens (buf : List Char) : List (List Char) :=
  match strtok [':', ' '] buf with
  | none => []
  | some (tok, rest) => tok :: spaceTokens rest

/-- `MAX_ARGS` from `fastboot_run_command`. -/
def MAX_ARGS : Nat := 16

/-- The token-collection loop of `get_command_buffer_argv`: collect up
to `fuel` further space-separated tokens; returns the collected argv,
whether the last `strtok` result was non-NULL (always the case when the
fuel, initially `MAX_ARGS - 1 ≥ 1`, is exhausted), and the remaining
buffer. -/
def get_argv_loop : Nat → List Char → List (List Char) →
    List (List Char) × Bool × List Char
  | 0, rest, acc => (acc, true, rest)
  | Nat.succ fuel, rest, acc =>
    match strtok [' '] rest with
    | none => (acc, false, rest)
    | some (tok, rest') => get_argv_loop fuel rest' (acc ++ [tok])

/-- `get_command_buffer_argv` from `fastboot.c`: split the command
buffer with `strtok_r` on `": "` then on `" "` into at most `MAX_ARGS`
tokens; report `EFI_INVALID_PARAMETER` when there is no first token or
when a further token remains after `MAX_ARGS` tokens. -/
def get_command_buffer_argv (command_buffer : List Char) :
    Except EfiStatus (List (List Char)) :=
  match strtok [':', ' '] command_buffer with
  | none => Except.error EfiStatus.invalidParameter
  | some (tok0, rest0) =>
    let r := get_argv_loop (MAX_ARGS - 1) rest0 [tok0]
    if r.2.1 && (strtok [' '] r.2.2).isSome then
      Except.error EfiStatus.invalidParameter
    else
      Except.ok r.1

/-- `fastboot_run_command` from `fastboot.c` (the dispatch step of the
main loop): when the machine state is `COMMAND`, parse the command
buffer and dispatch through `fastboot_run_cmd`; on a parse error the
function only logs and returns, emitting no reply and invoking no
handler. -/
def fastboot_run_command (st : FbState) (list : List FastbootCmd)
    (cur : DeviceState) (command_buffer : List Char) :
    List Reply × Option (FastbootCmd × List String) :=
  if st ≠ FbState.COMMAND then ([], none)
  else
    match get_command_buffer_argv command_buffer with
    | Except.error _ => ([], none)
    | Except.ok argv =>
      match argv with
      | [] => ([], none)
      | tok0 :: _ =>
        fastboot_run_cmd list cur (String.mk tok0) (argv.map String.mk)

/-- The built-in `COMMANDS` table of `fastboot.c` (names and minimum
lock states; registration order is irrelevant to exact-match lookup
since the names are distinct). -/
def COMMANDS : List FastbootCmd :=
  [⟨"download", DeviceState.LOCKED⟩, ⟨"flash", DeviceState.LOCKED⟩,
   ⟨"erase", DeviceState.UNLOCKED⟩, ⟨"getvar", DeviceState.LOCKED⟩,
   ⟨"boot", DeviceState.UNLOCKED⟩, ⟨"continue", DeviceState.LOCKED⟩,
   ⟨"reboot", DeviceState.LOCKED⟩, ⟨"reboot-bootloader", DeviceState.LOCKED⟩]

theorem get_argv_loop_overflow : ∀ fuel rest acc,
    fuel < (spaceTokens rest).length →
    (get_argv_loop fuel rest acc).2.1 = true ∧
    (strtok [' '] (get_argv_loop fuel rest acc).2.2).isSome = true := by
  intro fuel
  induction fuel with
  | zero =>
    intro rest acc h
    rw [spaceTokens_unfold] at h
    cases hs : strtok [' '] rest with
    | none => rw [hs] at h; simp at h
    | some p => exact ⟨rfl, by rw [get_argv_loop, hs]; rfl⟩
  | succ f ih =>
    intro rest acc h
    rw [spaceTokens_unfold] at h
    cases hs : strtok [' '] rest with
    | none => rw [hs] at h; simp at h
    | some p =>
      obtain ⟨tok, rest'⟩ := p
      rw [hs] at h
      simp only [List.length_cons] at h
      rw [get_argv_loop, hs]
      exact ih rest' (acc ++ [tok]) (by omega)

/-- A concrete command line with 18 tokens (one beyond what could even
be truncated to 16). -/
def c6_overlong_line : List Char :=
  String.data "getvar:a b c d e f g h i j k l m n o p q"

/-- C6 counterexample: on an overlong command line the parser does
return `EFI_INVALID_PARAMETER`, but `fastboot_run_command` transmits no
`FAIL` reply (and runs no handler) — it only logs and returns, contrary
to the claim that a `FAIL` reply is transmitted. -/
theorem c6_counterexample_no_fail_reply :
    get_command_buffer_argv c6_overlong_line =
      Except.error EfiStatus.invalidParameter ∧
    fastboot_run_command FbState.COMMAND COMMANDS DeviceState.UNLOCKED
      c6_overlong_line = ([], none) := by
  constructor
  · decide
  · decide

/-- C6 (amended): a command line still holding a non-empty token after
16 tokens have been parsed makes `get_command_buffer_argv` return
`EFI_INVALID_PARAMETER`, and `fastboot_run_command` then drops the
command without transmitting any reply and without invoking any
handler (the failure is only logged). -/
theorem c6_amended_overlong_command_dropped (list : List FastbootCmd)
    (cur : DeviceState) (buf : List Char)
    (h : 16 < (all_tokens buf).length) :
    get_command_buffer_argv buf = Except.error EfiStatus.invalidParameter ∧
    fastboot_run_command FbState.COMMAND list cur buf = ([], none) := by
  have herr : get_command_buffer_argv buf = Except.error EfiStatus.invalidParameter := by
    unfold all_tokens at h
    cases h0 : strtok [':', ' '] buf with
    | none => rw [h0] at h; simp at h
    | some p =>
      obtain ⟨tok0, rest0⟩ := p
      rw [h0] at h
      simp only [List.length_cons] at h
      have hov := get_argv_loop_overflow (MAX_ARGS - 1) rest0 [tok0]
        (by unfold MAX_ARGS; omega)
      unfold get_command_buffer_argv
      rw [h0]
      simp only [hov.1, hov.2, Bool.and_self, if_pos]
  refine ⟨herr, ?_⟩
  unfold fastboot_run_command
  rw [herr]
  simp

/-- Witness for the amended C6 at the concrete 18-token line. -/
theorem c6_amended_overlong_command_dropped_witness :
    16 < (all_tokens c6_overlong_line).length ∧
    (get_command_buffer_argv c6_overlong_line =
        Except.error EfiStatus.invalidParameter ∧
      fastboot_run_command FbState.COMMAND COMMANDS DeviceState.UNLOCKED
        c6_overlong_line = ([], none)) :=
  ⟨by decide, c6_amended_overlong_command_dropped COMMANDS DeviceState.UNLOCKED
    c6_overlong_line (by decide)⟩

/-- `MAX_VARIABLE_LENGTH` from `fastboot.c`: size of the `name` and
`value` buffers of a variable. -/
def MAX_VARIABLE_LENGTH : Nat := 64

/-- One `struct fastboot_var`: name, static value, and for dynamic
variables the result the `get_value` callback would produce
(`some none` models a getter returning NULL). -/
structure FastbootVar where
  name : String
  value : String
  get_value : Option (Option String)
  deriving DecidableEq, Repr

/-- `fastboot_getvar`: walk `varlist` and return the first entry whose
name `strcmp`-matches. -/
def fastboot_getvar (varlist : List FastbootVar) (name : String) :
    Option FastbootVar :=
  varlist.find? (fun v => v.name == name)

/-- The in-place `CopyMem(var->value, ...)` of `fastboot_publish` on the
node found by `fastboot_getvar`: update the first entry with the given
name. -/
def update_first_var (varlist : List FastbootVar) (name value : String) :
    List FastbootVar :=
  match varlist with
  | [] => []
  | v :: vs =>
    if v.name == name then { v with value := value } :: vs
    else v :: update_first_var vs name value

/-- `fastboot_publish` from `fastboot.c`: reject an over-long value
(`EFI_BUFFER_TOO_SMALL`) or name (`fastboot_getvar_or_create` returns
NULL, hence `EFI_INVALID_PARAMETER`); otherwise update the existing
entry in place or prepend a fresh zeroed entry. -/
def fastboot_publish (varlist : List FastbootVar) (name value : String) :
    EfiStatus × List FastbootVar :=
  if value.length + 1 > MAX_VARIABLE_LENGTH then
    (EfiStatus.bufferTooSmall, varlist)
  else if name.length + 1 > MAX_VARIABLE_LENGTH then
    (EfiStatus.invalidParameter, varlist)
  else
    match fastboot_getvar varlist name with
    | some _ => (EfiStatus.success, update_first_var varlist name value)
    | none =>
      (EfiStatus.success,
        { name := name, value := value, get_value := none } :: varlist)

/-- `MATCH_PART`, the literal prefix used by `clean_partition_var`. -/
def MATCH_PART : String := "partition-"

/-- `clean_partition_var` from `fastboot.c`: rebuild `varlist`, freeing
every entry whose name begins with `partition-` (the `memcmp` against
the zero-padded 64-byte name buffer equals a string-prefix test) and
pushing every kept entry onto the new list, which reverses their
order. -/
def clean_partition_var (varlist : List FastbootVar) : List FastbootVar :=
  varlist.foldl
    (fun acc v =>
      if MATCH_PART.data.isPrefixOf v.name.data then acc else v :: acc)
    []

theorem update_first_var_length (varlist : List FastbootVar)
    (name value : String) :
    (update_first_var varlist name value).length = varlist.length := by
  induction varlist with
  | nil => rfl
  | cons v vs ih =>
    unfold update_first_var
    by_cases h : v.name == name
    · simp [h]
    · simp only [Bool.not_eq_true] at h
      simp [h, ih]

theorem find?_update_first_var (varlist : List FastbootVar)
    (name value : String) (v : FastbootVar)
    (h : fastboot_getvar varlist name = some v) :
    fastboot_getvar (update_first_var varlist name value) name =
      some { v with value := value } := by
  induction varlist with
  | nil => simp [fastboot_getvar] at h
  | cons u vs ih =>
    unfold fastboot_getvar at h ih ⊢
    unfold update_first_var
    by_cases hu : (u.name == name) = true
    · rw [if_pos hu]
      rw [@List.find?_cons_of_pos _ (fun w => w.name == name) u vs hu] at h
      injection h with h
      subst h
      exact @List.find?_cons_of_pos _ (fun w => w.name == name)
        { name := u.name, value := value, get_value := u.get_value } vs hu
    · rw [if_neg hu]
      rw [@List.find?_cons_of_neg _ (fun w => w.name == name) u vs hu] at h
      rw [@List.find?_cons_of_neg _ (fun w => w.name == name) u
        (update_first_var vs name value) hu]
      exact ih h

theorem clean_partition_var_eq_filter (varlist : List FastbootVar) :
    clean_partition_var varlist =
      (varlist.filter
        (fun v => !(MATCH_PART.data.isPrefixOf v.name.data))).reverse := by
  have key : ∀ (l acc : List FastbootVar),
      l.foldl
        (fun acc v =>
          if MATCH_PART.data.isPrefixOf v.name.data then acc else v :: acc)
        acc =
      (l.filter (fun v => !(MATCH_PART.data.isPrefixOf v.name.data))).reverse
        ++ acc := by
    intro l
    induction l with
    | nil => intro acc; simp
    | cons v vs ih =>
      intro acc
      rw [List.foldl_cons, ih]
      cases h : MATCH_PART.data.isPrefixOf v.name.data with
      | false =>
        rw [List.filter_cons]
        simp [h]
      | true =>
        rw [List.filter_cons]
        simp [h]
  exact (key varlist []).trans (by simp)

/-- C7: publishing an already-present name overwrites the stored value
in place — the lookup then yields the updated entry and the number of
variables is unchanged — and `clean_partition_var` removes exactly the
variables whose names begin with `partition-`, keeping every other entry
untouched. -/
theorem c7_publish_overwrites_and_clean_exact (varlist : List FastbootVar)
    (name value : String) (v : FastbootVar)
    (hfound : fastboot_getvar varlist name = some v)
    (hval : value.length + 1 ≤ MAX_VARIABLE_LENGTH)
    (hname : name.length + 1 ≤ MAX_VARIABLE_LENGTH) :
    ((fastboot_publish varlist name value).1 = EfiStatus.success ∧
      fastboot_getvar (fastboot_publish varlist name value).2 name =
        some { v with value := value } ∧
      (fastboot_publish varlist name value).2.length = varlist.length) ∧
    (∀ w, w ∈ clean_partition_var varlist ↔
      (w ∈ varlist ∧ MATCH_PART.data.isPrefixOf w.name.data = false)) := by
  constructor
  · have hv' : ¬ value.length + 1 > MAX_VARIABLE_LENGTH := by omega
    have hn' : ¬ name.length + 1 > MAX_VARIABLE_LENGTH := by omega
    unfold fastboot_publish
    rw [if_neg hv', if_neg hn', hfound]
    exact ⟨rfl, find?_update_first_var varlist name value v hfound,
      update_first_var_length varlist name value⟩
  · intro w
    rw [clean_partition_var_eq_filter]
    simp [List.mem_reverse, List.mem_filter]

/-- Witness for C7 at a concrete variable list: republishing `product`
updates it in place, and the partition sweep removes exactly the
`partition-` entries. -/
theorem c7_publish_overwrites_and_clean_exact_witness :
    (fastboot_getvar
        [⟨"product", "old", none⟩, ⟨"partition-size:boot", "0x1000", none⟩]
        "product" = some ⟨"product", "old", none⟩ ∧
      7 + 1 ≤ MAX_VARIABLE_LENGTH) ∧
    ((fastboot_publish
        [⟨"product", "old", none⟩, ⟨"partition-size:boot", "0x1000", none⟩]
        "product" "new").1 = EfiStatus.success ∧
      fastboot_getvar (fastboot_publish
        [⟨"product", "old", none⟩, ⟨"partition-size:boot", "0x1000", none⟩]
        "product" "new").2 "product" = some ⟨"product", "new", none⟩ ∧
      (fastboot_publish
        [⟨"product", "old", none⟩, ⟨"partition-size:boot", "0x1000", none⟩]
        "product" "new").2.length = 2) ∧
    (∀ w, w ∈ clean_partition_var
        [⟨"product", "old", none⟩, ⟨"partition-size:boot", "0x1000", none⟩] ↔
      (w ∈ [⟨"product", "old", none⟩,
            (⟨"partition-size:boot", "0x1000", none⟩ : FastbootVar)] ∧
        MATCH_PART.data.isPrefixOf w.name.data = false)) := by
  refine ⟨⟨by decide, by decide⟩, ?_⟩
  exact c7_publish_overwrites_and_clean_exact
    [⟨"product", "old", none⟩, ⟨"partition-size:boot", "0x1000", none⟩]
    "product" "new" ⟨"product", "old", none⟩ (by decide) (by decide) (by decide)

/-- `fastboot_var_value` from `fastboot.c`: a static variable yields its
stored value; a dynamic getter returning NULL or a string of 64 bytes or
more (terminator included) yields the empty string. -/
def fastboot_var_value (v : FastbootVar) : String :=
  match v.get_value with
  | none => v.value
  | some got =>
    match got with
    | none => ""
    | some s => if s.length + 1 > MAX_VARIABLE_LENGTH then "" else s

/-- `cmd_getvar` from `fastboot.c`: `getvar:all` streams one `INFO` per
variable then `OKAY`; otherwise look the name up and reply `OKAY` with
the value, or with an empty payload when the variable does not exist. -/
def cmd_getvar (varlist : List FastbootVar) (argv : List String) :
    List Reply :=
  match argv with
  | [_, arg] =>
    if arg == "all" then
      (varlist.map (fun v =>
        fastboot_info_msg (v.name ++ ": " ++ fastboot_var_value v)))
        ++ [fastboot_okay_msg ""]
    else
      match fastboot_getvar varlist arg with
      | some v => [fastboot_okay_msg (fastboot_var_value v)]
      | none => [fastboot_okay_msg ""]
  | _ => [fastboot_fail_msg "Invalid parameter"]

/-- C10: `getvar:<name>` with `<name> ≠ all` and no published variable
of that name replies `OKAY` with an empty payload (never `FAIL`); the
same empty `OKAY` results when a dynamic getter returns NULL or a string
longer than 63 bytes. -/
theorem c10_getvar_unknown_and_dynamic_empty_okay
    (varlist : List FastbootVar) (c arg : String) (v : FastbootVar) :
    (arg ≠ "all" → fastboot_getvar varlist arg = none →
      cmd_getvar varlist [c, arg] = [Reply.mk ReplyCode.OKAY ""]) ∧
    (arg ≠ "all" → fastboot_getvar varlist arg = some v →
      v.get_value = some none →
      cmd_getvar varlist [c, arg] = [Reply.mk ReplyCode.OKAY ""]) ∧
    (∀ s, arg ≠ "all" → fastboot_getvar varlist arg = some v →
      v.get_value = some (some s) → s.length > 63 →
      cmd_getvar varlist [c, arg] = [Reply.mk ReplyCode.OKAY ""]) := by
  refine ⟨?_, ?_, ?_⟩
  · intro hall hnone
    have hne : (arg == "all") = false := by simp [hall]
    simp only [cmd_getvar, hne, Bool.false_eq_true, if_false, hnone]
    decide
  · intro hall hsome hdyn
    have hne : (arg == "all") = false := by simp [hall]
    simp only [cmd_getvar, hne, Bool.false_eq_true, if_false, hsome,
      fastboot_var_value, hdyn]
    decide
  · intro s hall hsome hdyn hlong
    have hne : (arg == "all") = false := by simp [hall]
    have hgt : s.length + 1 > MAX_VARIABLE_LENGTH := by
      unfold MAX_VARIABLE_LENGTH
      omega
    simp only [cmd_getvar, hne, Bool.false_eq_true, if_false, hsome,
      fastboot_var_value, hdyn, if_pos hgt]
    decide

/-- Witness for C10 at concrete inputs: an unknown name, a NULL-getter
variable and an over-long dynamic value, each yielding the empty `OKAY`. -/
theorem c10_getvar_unknown_and_dynamic_empty_okay_witness :
    cmd_getvar [⟨"product", "x", none⟩] ["getvar", "serialno"] =
      [Reply.mk ReplyCode.OKAY ""] ∧
    cmd_getvar [⟨"battery-voltage", "", some none⟩]
        ["getvar", "battery-voltage"] = [Reply.mk ReplyCode.OKAY ""] ∧
    cmd_getvar
        [⟨"battery-voltage", "",
          some (some (String.mk (List.replicate 64 'a')))⟩]
        ["getvar", "battery-voltage"] = [Reply.mk ReplyCode.OKAY ""] := by
  refine ⟨?_, ?_, ?_⟩
  · exact (c10_getvar_unknown_and_dynamic_empty_okay [⟨"product", "x", none⟩]
      "getvar" "serialno" ⟨"", "", none⟩).1 (by decide) (by decide)
  · exact (c10_getvar_unknown_and_dynamic_empty_okay
      [⟨"battery-voltage", "", some none⟩] "getvar" "battery-voltage"
      ⟨"battery-voltage", "", some none⟩).2.1 (by decide) (by decide) rfl
  · exact (c10_getvar_unknown_and_dynamic_empty_okay
      [⟨"battery-voltage", "", some (some (String.mk (List.replicate 64 'a')))⟩]
      "getvar" "battery-voltage"
      ⟨"battery-voltage", "", some (some (String.mk (List.replicate 64 'a')))⟩).2.2
      (String.mk (List.replicate 64 'a')) (by decide) (by decide) rfl (by decide)

/-- 2^64, the modulus of the `UINT64`/`UINTN` arithmetic of the flash
engine. -/
def UINT64_MOD : Nat := 2 ^ 64

/-- The partition fields of `struct gpt_partition_interface` used by the
flash engine: LBA range and the block size of the backing medium. -/
structure GptPartition where
  starting_lba : Nat
  ending_lba : Nat
  block_size : Nat
  deriving DecidableEq, Repr

/-- The `part_start` macro of `flash.c`:
`gparti.part.starting_lba * gparti.bio->Media->BlockSize` in `UINT64`
arithmetic. -/
def part_start (g : GptPartition) : Nat :=
  (g.starting_lba * g.block_size) % UINT64_MOD

/-- The `part_end` macro of `flash.c`:
`(gparti.part.ending_lba + 1) * gparti.bio->Media->BlockSize` in
`UINT64` arithmetic. -/
def part_end (g : GptPartition) : Nat :=
  ((g.ending_lba + 1) * g.block_size) % UINT64_MOD

/-- The `is_inside_partition(off, sz)` macro:
`off >= part_start && off + sz <= part_end` in `UINT64` arithmetic. -/
def is_inside_partition (g : GptPartition) (off size : Nat) : Bool :=
  decide (part_start g ≤ off) &&
    decide ((off + size) % UINT64_MOD ≤ part_end g)

/-- State of the flash engine: the resolved partition (`gparti`, with
`bioValid` standing for `gparti.bio != NULL`) and the write cursor
`cur_offset`. -/
structure FlashState where
  bioValid : Bool
  gparti : GptPartition
  cur_offset : Nat
  deriving DecidableEq, Repr

/-- One `WriteDisk` call: absolute byte offset and size. -/
structure WriteOp where
  offset : Nat
  size : Nat
  deriving DecidableEq, Repr

/-- `flash_skip` from `flash.c`: advance `cur_offset` by `size` inside
the partition, or fail with `EFI_INVALID_PARAMETER` leaving the offset
unchanged. -/
def flash_skip (st : FlashState) (size : Nat) : EfiStatus × FlashState :=
  if !(is_inside_partition st.gparti st.cur_offset size) then
    (EfiStatus.invalidParameter, st)
  else
    (EfiStatus.success,
     { st with cur_offset := (st.cur_offset + size) % UINT64_MOD })

/-- `flash_write` from `flash.c`: reject a NULL `bio` or an
out-of-partition range with `EFI_INVALID_PARAMETER` (no write, no
advance); otherwise call `WriteDisk` at `cur_offset` (its status is
returned, the interval recorded) and advance the offset. -/
def flash_write (writeDiskRet : Nat → Nat → EfiStatus) (st : FlashState)
    (size : Nat) : EfiStatus × FlashState × List WriteOp :=
  if !st.bioValid then (EfiStatus.invalidParameter, st, [])
  else if !(is_inside_partition st.gparti st.cur_offset size) then
    (EfiStatus.invalidParameter, st, [])
  else
    (writeDiskRet st.cur_offset size,
     { st with cur_offset := (st.cur_offset + size) % UINT64_MOD },
     [WriteOp.mk st.cur_offset size])

theorem is_inside_partition_iff (g : GptPartition) (off size : Nat) :
    is_inside_partition g off size = true ↔
      (part_start g ≤ off ∧ (off + size) % UINT64_MOD ≤ part_end g) := by
  unfold is_inside_partition
  simp

/-- C3 counterexample: at `cur_offset = 2^64 - 1` and `size = 513` on a
partition spanning bytes `[0, 512)` (LBA 0, 512-byte blocks), the 64-bit
sum in `is_inside_partition` wraps to 512, so `flash_skip` succeeds and
`flash_write` issues a `WriteDisk` call — even though the exact sum
`cur_offset + size` exceeds the partition end
`(ending_lba + 1) * block_size = 512`, contradicting the claim's exact
success condition. -/
theorem c3_counterexample_offset_wrap :
    (flash_skip ⟨true, ⟨0, 0, 512⟩, 2 ^ 64 - 1⟩ 513).1 = EfiStatus.success ∧
    (flash_write (fun _ _ => EfiStatus.success)
        ⟨true, ⟨0, 0, 512⟩, 2 ^ 64 - 1⟩ 513).2.2 =
      [WriteOp.mk (2 ^ 64 - 1) 513] ∧
    ¬ ((2 ^ 64 - 1) + 513 ≤ (0 + 1) * 512) := by
  refine ⟨by decide, by decide, by decide⟩

/-- C3 (amended): `flash_write` and `flash_skip` enforce the bounds
check in the engine's 64-bit arithmetic — success holds exactly when
`part_start ≤ cur_offset` and `(cur_offset + size) mod 2^64 ≤ part_end`
(the products in `part_start`/`part_end` likewise reduced mod 2^64);
every `WriteDisk` interval satisfies those wrapped bounds; a failed
check returns `EFI_INVALID_PARAMETER` without writing and without
advancing the offset; and whenever `cur_offset + size` and the two LBA
products are below 2^64 the success condition and the write intervals
coincide with the claim's exact inequalities
`starting_lba*block_size ≤ cur_offset` and
`cur_offset + size ≤ (ending_lba+1)*block_size`. -/
theorem c3_amended_flash_bounds_mod64 (wd : Nat → Nat → EfiStatus)
    (st : FlashState) (size : Nat) :
    ((flash_skip st size).1 = EfiStatus.success ↔
      (part_start st.gparti ≤ st.cur_offset ∧
        (st.cur_offset + size) % UINT64_MOD ≤ part_end st.gparti)) ∧
    (¬ (part_start st.gparti ≤ st.cur_offset ∧
        (st.cur_offset + size) % UINT64_MOD ≤ part_end st.gparti) →
      (flash_skip st size).1 = EfiStatus.invalidParameter ∧
      (flash_skip st size).2 = st) ∧
    (∀ w, w ∈ (flash_write wd st size).2.2 →
      part_start st.gparti ≤ w.offset ∧
      (w.offset + w.size) % UINT64_MOD ≤ part_end st.gparti) ∧
    ((flash_write wd st size).1 = EfiStatus.success →
      (part_start st.gparti ≤ st.cur_offset ∧
        (st.cur_offset + size) % UINT64_MOD ≤ part_end st.gparti)) ∧
    (¬ (part_start st.gparti ≤ st.cur_offset ∧
        (st.cur_offset + size) % UINT64_MOD ≤ part_end st.gparti) →
      (flash_write wd st size).1 = EfiStatus.invalidParameter ∧
      (flash_write wd st size).2.1 = st ∧
      (flash_write wd st size).2.2 = []) ∧
    (st.cur_offset + size < UINT64_MOD →
      st.gparti.starting_lba * st.gparti.block_size < UINT64_MOD →
      (st.gparti.ending_lba + 1) * st.gparti.block_size < UINT64_MOD →
      ((flash_skip st size).1 = EfiStatus.success ↔
        (st.gparti.starting_lba * st.gparti.block_size ≤ st.cur_offset ∧
          st.cur_offset + size ≤
            (st.gparti.ending_lba + 1) * st.gparti.block_size))) ∧
    (st.cur_offset + size < UINT64_MOD →
      st.gparti.starting_lba * st.gparti.block_size < UINT64_MOD →
      (st.gparti.ending_lba + 1) * st.gparti.block_size < UINT64_MOD →
      ∀ w, w ∈ (flash_write wd st size).2.2 →
        st.gparti.starting_lba * st.gparti.block_size ≤ w.offset ∧
        w.offset + w.size ≤
          (st.gparti.ending_lba + 1) * st.gparti.block_size) := by
  have hiff := is_inside_partition_iff st.gparti st.cur_offset size
  refine ⟨?_, ?_, ?_, ?_, ?_, ?_, ?_⟩
  · unfold flash_skip
    cases hin : is_inside_partition st.gparti st.cur_offset size with
    | false =>
      rw [hin] at hiff
      constructor
      · intro h
        simp at h
      · intro h
        exact absurd (hiff.mpr h) (by simp)
    | true =>
      rw [hin] at hiff
      constructor
      · intro _
        exact hiff.mp rfl
      · intro _
        simp
  · intro hout
    have hin : is_inside_partition st.gparti st.cur_offset size = false := by
      cases hin : is_inside_partition st.gparti st.cur_offset size with
      | false => rfl
      | true => rw [hin] at hiff; exact absurd (hiff.mp rfl) hout
    unfold flash_skip
    rw [hin]
    exact ⟨rfl, rfl⟩
  · intro w hw
    unfold flash_write at hw
    by_cases hb : st.bioValid = false
    · rw [hb] at hw; simp at hw
    · have hb' : st.bioValid = true := by
        cases h : st.bioValid
        · exact absurd h hb
        · rfl
      rw [hb'] at hw
      cases hin : is_inside_partition st.gparti st.cur_offset size with
      | false => rw [hin] at hw; simp at hw
      | true =>
        rw [hin] at hw
        simp only [Bool.not_true, Bool.false_eq_true, if_false,
          Bool.not_false, List.mem_singleton] at hw
        rw [hiff] at hin
        subst hw
        exact hin
  · intro hsucc
    unfold flash_write at hsucc
    by_cases hb : st.bioValid = false
    · rw [hb] at hsucc
      simp at hsucc
    · have hb' : st.bioValid = true := by
        cases h : st.bioValid
        · exact absurd h hb
        · rfl
      rw [hb'] at hsucc
      cases hin : is_inside_partition st.gparti st.cur_offset size with
      | false =>
        rw [hin] at hsucc
        simp at hsucc
      | true => rw [hiff] at hin; exact hin
  · intro hout
    have hin : is_inside_partition st.gparti st.cur_offset size = false := by
      cases hin : is_inside_partition st.gparti st.cur_offset size with
      | false => rfl
      | true => rw [hin] at hiff; exact absurd (hiff.mp rfl) hout
    unfold flash_write
    cases hb : st.bioValid with
    | false => exact ⟨rfl, rfl, rfl⟩
    | true => rw [hin]; exact ⟨rfl, rfl, rfl⟩
  · intro hnw hps hpe
    have hstart : part_start st.gparti =
        st.gparti.starting_lba * st.gparti.block_size := Nat.mod_eq_of_lt hps
    have hend : part_end st.gparti =
        (st.gparti.ending_lba + 1) * st.gparti.block_size :=
      Nat.mod_eq_of_lt hpe
    have hiff2 := is_inside_partition_iff st.gparti st.cur_offset size
    rw [hstart, hend, Nat.mod_eq_of_lt hnw] at hiff2
    unfold flash_skip
    cases hin : is_inside_partition st.gparti st.cur_offset size with
    | false =>
      rw [hin] at hiff2
      constructor
      · intro h
        simp at h
      · intro h
        exact absurd (hiff2.mpr h) (by simp)
    | true =>
      rw [hin] at hiff2
      constructor
      · intro _
        exact hiff2.mp rfl
      · intro _
        simp
  · intro hnw hps hpe w hw
    have hstart : part_start st.gparti =
        st.gparti.starting_lba * st.gparti.block_size := Nat.mod_eq_of_lt hps
    have hend : part_end st.gparti =
        (st.gparti.ending_lba + 1) * st.gparti.block_size :=
      Nat.mod_eq_of_lt hpe
    unfold flash_write at hw
    by_cases hb : st.bioValid = false
    · rw [hb] at hw; simp at hw
    · have hb' : st.bioValid = true := by
        cases h : st.bioValid
        · exact absurd h hb
        · rfl
      rw [hb'] at hw
      cases hin : is_inside_partition st.gparti st.cur_offset size with
      | false => rw [hin] at hw; simp at hw
      | true =>
        rw [hin] at hw
        simp only [Bool.not_true, Bool.false_eq_true, if_false,
          Bool.not_false, List.mem_singleton] at hw
        rw [is_inside_partition_iff] at hin
        subst hw
        constructor
        · rw [hstart] at hin
          exact hin.1
        · have h2 := hin.2
          rw [Nat.mod_eq_of_lt hnw, hend] at h2
          exact h2

/-- Witness for the amended C3 at a concrete partition (LBAs 2..5,
512-byte blocks, cursor at the partition start, 1024-byte operation):
the no-wrap side conditions hold and the wrapped and exact bounds
coincide. -/
theorem c3_amended_flash_bounds_mod64_witness :
    ((1024 + 1024 < UINT64_MOD ∧ 2 * 512 < UINT64_MOD ∧
        (5 + 1) * 512 < UINT64_MOD) ∧
      ((flash_skip ⟨true, ⟨2, 5, 512⟩, 1024⟩ 1024).1 = EfiStatus.success ↔
        (part_start ⟨2, 5, 512⟩ ≤ 1024 ∧
          (1024 + 1024) % UINT64_MOD ≤ part_end ⟨2, 5, 512⟩))) ∧
    ((flash_skip ⟨true, ⟨2, 5, 512⟩, 1024⟩ 1024).1 = EfiStatus.success ↔
      (2 * 512 ≤ 1024 ∧ 1024 + 1024 ≤ (5 + 1) * 512)) ∧
    (∀ w, w ∈ (flash_write (fun _ _ => EfiStatus.success)
        ⟨true, ⟨2, 5, 512⟩, 1024⟩ 1024).2.2 →
      2 * 512 ≤ w.offset ∧ w.offset + w.size ≤ (5 + 1) * 512) := by
  refine ⟨⟨⟨by decide, by decide, by decide⟩, ?_⟩, ?_, ?_⟩
  · exact (c3_amended_flash_bounds_mod64 (fun _ _ => EfiStatus.success)
      ⟨true, ⟨2, 5, 512⟩, 1024⟩ 1024).1
  · exact (c3_amended_flash_bounds_mod64 (fun _ _ => EfiStatus.success)
      ⟨true, ⟨2, 5, 512⟩, 1024⟩ 1024).2.2.2.2.2.1
      (by decide) (by decide) (by decide)
  · exact (c3_amended_flash_bounds_mod64 (fun _ _ => EfiStatus.success)
      ⟨true, ⟨2, 5, 512⟩, 1024⟩ 1024).2.2.2.2.2.2
      (by decide) (by decide) (by decide)

/-- The Android boot-image header fields used by `flash_zimage`
(`struct boot_img_hdr`). -/
structure BootImgHdr where
  page_size : Nat
  kernel_size : Nat
  ramdisk_size : Nat
  second_size : Nat
  dt_size : Nat
  deriving DecidableEq, Repr

/-- Modelled from the spec: `pagealign(hdr, size)` (from `android.h`,
not under `src/`) rounds `size` up to a multiple of `hdr->page_size`. -/
def pagealign (hdr : BootImgHdr) (size : Nat) : Nat :=
  ((size + hdr.page_size - 1) / hdr.page_size) * hdr.page_size

/-- Modelled from the spec: `bootimage_size(hdr)` (from `android.h`, not
under `src/`) is `page_size` plus the page-aligned kernel, ramdisk,
second-stage and device-tree sections. -/
def bootimage_size (hdr : BootImgHdr) : Nat :=
  hdr.page_size + pagealign hdr hdr.kernel_size +
    pagealign hdr hdr.ramdisk_size + pagealign hdr hdr.second_size +
    pagealign hdr hdr.dt_size

/-- `partlen` as computed by `flash_zimage`:
`(ending_lba + 1 - starting_lba) * BlockSize` in `UINTN` arithmetic. -/
def zimage_partlen (g : GptPartition) : Nat :=
  ((g.ending_lba + 1 - g.starting_lba) * g.block_size) % UINT64_MOD

/-- `new_size` as computed by `flash_zimage`:
`bootimage_size(bootimage) - bootimage->kernel_size + pagealign(bootimage, size)`
in `UINTN` arithmetic (64-bit wrap-around subtraction). -/
def zimage_new_size (hdr : BootImgHdr) (size : Nat) : Nat :=
  (bootimage_size hdr + UINT64_MOD - hdr.kernel_size % UINT64_MOD +
    pagealign hdr size) % UINT64_MOD

/-- Oracle environment for `flash_zimage`: the `boot` partition lookup,
the two allocations, the `ReadDisk` result, the `ANDROID!` magic
comparison, the header read from the partition, and the `WriteDisk`
oracle. -/
structure ZimageEnv where
  gpartRet : Except EfiStatus GptPartition
  allocOk : Bool
  readRet : EfiStatus
  magicOk : Bool
  hdr : BootImgHdr
  allocOk2 : Bool
  writeDiskRet : Nat → Nat → EfiStatus

/-- `flash_zimage` from `flash.c`: read the current `boot` partition,
check the `ANDROID!` magic (`EFI_UNSUPPORTED` otherwise), compute the
new image size, reject it when larger than the partition
(`EFI_INVALID_PARAMETER`), and otherwise build the new image and write
it from the partition start through `flash_write`. -/
def flash_zimage (env : ZimageEnv) (size : Nat) : EfiStatus × List WriteOp :=
  match env.gpartRet with
  | Except.error e => (e, [])
  | Except.ok g =>
    if !env.allocOk then (EfiStatus.outOfResources, [])
    else if env.readRet.isError then (env.readRet, [])
    else if !env.magicOk then (EfiStatus.unsupported, [])
    else
      let new_size := zimage_new_size env.hdr size
      if new_size > zimage_partlen g then (EfiStatus.invalidParameter, [])
      else if !env.allocOk2 then (EfiStatus.outOfResources, [])
      else
        let r := flash_write env.writeDiskRet
          { bioValid := true, gparti := g, cur_offset := part_start g }
          new_size
        (r.1, r.2.2)

/-- C8: with the boot partition readable, `flash_zimage` computes the
new image size as the old total boot-image size minus the old
`kernel_size` field plus the page-aligned new kernel size; it returns
`EFI_UNSUPPORTED` without writing when the partition does not start with
the boot-image magic, and `EFI_INVALID_PARAMETER` without writing when
the new size exceeds the partition length. -/
theorem c8_flash_zimage_checks (env : ZimageEnv) (g : GptPartition)
    (size : Nat)
    (hg : env.gpartRet = Except.ok g)
    (halloc : env.allocOk = true)
    (hread : env.readRet = EfiStatus.success)
    (hks : env.hdr.kernel_size ≤ bootimage_size env.hdr)
    (hk64 : env.hdr.kernel_size < UINT64_MOD)
    (hfit : bootimage_size env.hdr - env.hdr.kernel_size +
      pagealign env.hdr size < UINT64_MOD) :
    zimage_new_size env.hdr size =
      bootimage_size env.hdr - env.hdr.kernel_size +
        pagealign env.hdr size ∧
    (env.magicOk = false →
      flash_zimage env size = (EfiStatus.unsupported, [])) ∧
    (env.magicOk = true →
      bootimage_size env.hdr - env.hdr.kernel_size +
          pagealign env.hdr size > zimage_partlen g →
      flash_zimage env size = (EfiStatus.invalidParameter, [])) := by
  have hsize : zimage_new_size env.hdr size =
      bootimage_size env.hdr - env.hdr.kernel_size + pagealign env.hdr size := by
    unfold zimage_new_size
    rw [Nat.mod_eq_of_lt hk64]
    have harr : bootimage_size env.hdr + UINT64_MOD - env.hdr.kernel_size +
        pagealign env.hdr size =
        (bootimage_size env.hdr - env.hdr.kernel_size +
          pagealign env.hdr size) + UINT64_MOD := by
      omega
    rw [harr, Nat.add_mod_right, Nat.mod_eq_of_lt hfit]
  refine ⟨hsize, ?_, ?_⟩
  · intro hmagic
    unfold flash_zimage
    rw [hg]
    simp [halloc, hread, hmagic, EfiStatus.isError]
  · intro hmagic hbig
    unfold flash_zimage
    rw [hg]
    dsimp only
    rw [halloc, hread, hmagic]
    have hgt : zimage_new_size env.hdr size > zimage_partlen g := by
      rw [hsize]
      exact hbig
    rw [if_neg (show ¬ ((!true) = true) by decide),
      if_neg (show ¬ (EfiStatus.success.isError = true) by decide),
      if_neg (show ¬ ((!true) = true) by decide),
      if_pos hgt]

/-- Witness for C8 at a concrete setup: a 4-page boot image with a
2048-byte kernel in an 8 KiB partition, and a new kernel too large to
fit. -/
theorem c8_flash_zimage_checks_witness :
    (zimage_new_size ⟨2048, 2048, 2048, 0, 0⟩ 16384 =
      bootimage_size ⟨2048, 2048, 2048, 0, 0⟩ - 2048 +
        pagealign ⟨2048, 2048, 2048, 0, 0⟩ 16384) ∧
    (flash_zimage
        { gpartRet := Except.ok ⟨0, 15, 512⟩, allocOk := true,
          readRet := EfiStatus.success, magicOk := false,
          hdr := ⟨2048, 2048, 2048, 0, 0⟩, allocOk2 := true,
          writeDiskRet := fun _ _ => EfiStatus.success } 16384 =
      (EfiStatus.unsupported, [])) ∧
    (flash_zimage
        { gpartRet := Except.ok ⟨0, 15, 512⟩, allocOk := true,
          readRet := EfiStatus.success, magicOk := true,
          hdr := ⟨2048, 2048, 2048, 0, 0⟩, allocOk2 := true,
          writeDiskRet := fun _ _ => EfiStatus.success } 16384 =
      (EfiStatus.invalidParameter, [])) := by
  have h1 := c8_flash_zimage_checks
    { gpartRet := Except.ok ⟨0, 15, 512⟩, allocOk := true,
      readRet := EfiStatus.success, magicOk := false,
      hdr := ⟨2048, 2048, 2048, 0, 0⟩, allocOk2 := true,
      writeDiskRet := fun _ _ => EfiStatus.success } ⟨0, 15, 512⟩ 16384
    rfl rfl rfl (by decide) (by decide) (by decide)
  have h2 := c8_flash_zimage_checks
    { gpartRet := Except.ok ⟨0, 15, 512⟩, allocOk := true,
      readRet := EfiStatus.success, magicOk := true,
      hdr := ⟨2048, 2048, 2048, 0, 0⟩, allocOk2 := true,
      writeDiskRet := fun _ _ => EfiStatus.success } ⟨0, 15, 512⟩ 16384
    rfl rfl rfl (by decide) (by decide) (by decide)
  exact ⟨h1.1, h1.2.1 rfl, h2.2.2 rfl (by decide)⟩

/-- `DIV_ROUND_UP(n, d)` from `lib.h`: ceiling division. -/
def DIV_ROUND_UP (n d : Nat) : Nat := (n + d - 1) / d

/-- `VERITY_METADATA_SIZE` from `hashes.c`. -/
def VERITY_METADATA_SIZE : Nat := 32768

/-- `VERITY_BLOCK_SIZE` from `hashes.c`. -/
def VERITY_BLOCK_SIZE : Nat := 4096

/-- `VERITY_HASH_SIZE` from `hashes.c` (SHA-256). -/
def VERITY_HASH_SIZE : Nat := 32

/-- `VERITY_HASHES_PER_BLOCK` from `hashes.c`: `4096 / 32 = 128`. -/
def VERITY_HASHES_PER_BLOCK : Nat := VERITY_BLOCK_SIZE / VERITY_HASH_SIZE

/-- `SQUASHFS_PADDING` from `hashes.c`. -/
def SQUASHFS_PADDING : Nat := 4096

/-- `SQUASHFS_MAGIC` from `hashes.c`. -/
def SQUASHFS_MAGIC : Nat := 0x73717368

/-- The `do { level_blocks = DIV_ROUND_UP(level_blocks, 128); } while
(level--)` body of `verity_tree_blocks`, executed `n` times. -/
def applyHashDiv : Nat → Nat → Nat
  | 0, b => b
  | Nat.succ n, b => applyHashDiv n (DIV_ROUND_UP b VERITY_HASHES_PER_BLOCK)

/-- `verity_tree_blocks` from `hashes.c`: the 4 KiB block count of
`data_size`, divided (rounding up) by the hashes per block `level + 1`
times. -/
def verity_tree_blocks (data_size : Nat) (level : Nat) : Nat :=
  applyHashDiv (level + 1) (DIV_ROUND_UP data_size VERITY_BLOCK_SIZE)

theorem applyHashDiv_succ : ∀ n b, applyHashDiv (n + 1) b =
    DIV_ROUND_UP (applyHashDiv n b) VERITY_HASHES_PER_BLOCK := by
  intro n
  induction n with
  | zero => intro b; rfl
  | succ m ih =>
    intro b
    show applyHashDiv (m + 1) (DIV_ROUND_UP b VERITY_HASHES_PER_BLOCK) = _
    rw [ih]
    rfl

theorem verity_tree_blocks_succ (ds L : Nat) :
    verity_tree_blocks ds (L + 1) =
      DIV_ROUND_UP (verity_tree_blocks ds L) VERITY_HASHES_PER_BLOCK :=
  applyHashDiv_succ (L + 1) (DIV_ROUND_UP ds VERITY_BLOCK_SIZE)

theorem div_hashes_lt (b : Nat) (hb : 1 < b) :
    DIV_ROUND_UP b VERITY_HASHES_PER_BLOCK < b := by
  have h128 : VERITY_HASHES_PER_BLOCK = 128 := rfl
  unfold DIV_ROUND_UP
  rw [h128]
  omega

/-- The accumulation loop of `verity_tree_size` from `hashes.c`:
starting at `levels`, add `verity_tree_blocks(data_size, levels)` to the
accumulator and continue while that level still has more than one
block. -/
def verity_size_loop (data_size levels acc : Nat) : Nat :=
  if _h : verity_tree_blocks data_size levels > 1 then
    verity_size_loop data_size (levels + 1)
      (acc + verity_tree_blocks data_size levels)
  else acc + verity_tree_blocks data_size levels
termination_by verity_tree_blocks data_size levels
decreasing_by
  rw [verity_tree_blocks_succ]
  exact div_hashes_lt _ _h

/-- `verity_tree_size` from `hashes.c`: the summed level blocks times
the 4 KiB verity block size. -/
def verity_tree_size (data_size : Nat) : Nat :=
  verity_size_loop data_size 0 0 * VERITY_BLOCK_SIZE

/-- Written from the claim's words (for comparison with
`verity_tree_size`): the sum of the successive hash levels — each level
the ceiling division of the previous block count by the 128 hashes per
block — starting from the level over the data blocks and stopping once a
level has at most one block (that level included). -/
def c9_level_sum (x : Nat) : Nat :=
  if _h : x > 1 then
    x + c9_level_sum (DIV_ROUND_UP x VERITY_HASHES_PER_BLOCK)
  else x
termination_by x
decreasing_by
  exact div_hashes_lt x _h

/-- Written from the claim's words: the Merkle-tree size over the 4 KiB
block count of `data_size`, 4096 bytes per tree block. -/
def c9_verity_tree_size_claim (data_size : Nat) : Nat :=
  c9_level_sum
    (DIV_ROUND_UP (DIV_ROUND_UP data_size VERITY_BLOCK_SIZE)
      VERITY_HASHES_PER_BLOCK) * VERITY_BLOCK_SIZE

theorem verity_size_loop_eq_level_sum (ds : Nat) :
    ∀ n L acc, verity_tree_blocks ds L ≤ n →
      verity_size_loop ds L acc = acc + c9_level_sum (verity_tree_blocks ds L) := by
  intro n
  induction n with
  | zero =>
    intro L acc h
    have h0 : verity_tree_blocks ds L = 0 := by omega
    unfold verity_size_loop
    rw [h0]
    unfold c9_level_sum
    simp
  | succ m ih =>
    intro L acc h
    by_cases hlb : verity_tree_blocks ds L > 1
    · unfold verity_size_loop
      rw [dif_pos hlb]
      have hnext : verity_tree_blocks ds (L + 1) ≤ m := by
        have := verity_tree_blocks_succ ds L
        have := div_hashes_lt (verity_tree_blocks ds L) hlb
        omega
      rw [ih (L + 1) (acc + verity_tree_blocks ds L) hnext]
      conv =>
        rhs
        rw [c9_level_sum]
      rw [dif_pos hlb, verity_tree_blocks_succ]
      omega
    · unfold verity_size_loop
      rw [dif_neg hlb]
      conv =>
        rhs
        rw [c9_level_sum]
      rw [dif_neg hlb]

/-- `get_squashfs_len` from `hashes.c` over the superblock fields it
reads: the `read_partition` status, `s_magic` and `bytes_used` (64-bit
padding arithmetic). -/
def get_squashfs_len (readRet : EfiStatus) (s_magic bytes_used : Nat) :
    Except EfiStatus Nat :=
  if readRet.isError then Except.error readRet
  else if s_magic ≠ SQUASHFS_MAGIC then Except.error EfiStatus.invalidParameter
  else if bytes_used % SQUASHFS_PADDING ≠ 0 then
    Except.ok
      ((((bytes_used + SQUASHFS_PADDING) % UINT64_MOD) / SQUASHFS_PADDING) *
        SQUASHFS_PADDING)
  else Except.ok bytes_used

/-- The `fs_len += verity_tree_size(fs_len) + VERITY_METADATA_SIZE`
update of `get_fs_hash` (`hashes.c`), in 64-bit arithmetic. -/
def get_fs_hash_len (fs_len : Nat) : Nat :=
  (fs_len + (verity_tree_size fs_len + VERITY_METADATA_SIZE)) % UINT64_MOD

/-- C9 counterexample: at `bytes_used = 2^64 - 1` (not a multiple of
4096) the 64-bit addition `bytes_used + 4096` wraps and
`get_squashfs_len` yields 0, not `bytes_used` rounded up to the next
multiple of 4096 — so the size computation is not exact integer
arithmetic over the full `u64` range. -/
theorem c9_counterexample_squashfs_wrap :
    get_squashfs_len EfiStatus.success SQUASHFS_MAGIC (2 ^ 64 - 1) =
      Except.ok 0 ∧
    ((2 ^ 64 - 1 + SQUASHFS_PADDING - 1) / SQUASHFS_PADDING) *
        SQUASHFS_PADDING ≠ 0 := by
  constructor
  · decide
  · decide

/-- C9 (amended): for `bytes_used` small enough that the 64-bit padding
addition does not wrap (`bytes_used + 4096 < 2^64`), the SquashFS length
is `bytes_used` rounded up to the next multiple of 4096, unchanged when
already a multiple; `verity_tree_size` equals the claimed sum of
ceiling-divided hash levels times 4096; and, without 64-bit wrap, the
hashed region is the filesystem length extended by
`verity_tree_size(fs_len) + 32768`. -/
theorem c9_amended_hasher_sizes (bytes_used fs_len : Nat)
    (hb : bytes_used + SQUASHFS_PADDING < UINT64_MOD)
    (hf : fs_len + (verity_tree_size fs_len + VERITY_METADATA_SIZE) <
      UINT64_MOD) :
    (get_squashfs_len EfiStatus.success SQUASHFS_MAGIC bytes_used =
      Except.ok
        (((bytes_used + SQUASHFS_PADDING - 1) / SQUASHFS_PADDING) *
          SQUASHFS_PADDING)) ∧
    (bytes_used % SQUASHFS_PADDING = 0 →
      get_squashfs_len EfiStatus.success SQUASHFS_MAGIC bytes_used =
        Except.ok bytes_used) ∧
    (∀ ds, verity_tree_size ds = c9_verity_tree_size_claim ds) ∧
    (get_fs_hash_len fs_len =
      fs_len + verity_tree_size fs_len + VERITY_METADATA_SIZE) := by
  have hpad : SQUASHFS_PADDING = 4096 := rfl
  refine ⟨?_, ?_, ?_, ?_⟩
  · unfold get_squashfs_len
    rw [if_neg (show ¬ (EfiStatus.success.isError = true) by decide),
      if_neg (show ¬ (SQUASHFS_MAGIC ≠ SQUASHFS_MAGIC) by simp)]
    by_cases hm : bytes_used % SQUASHFS_PADDING = 0
    · rw [if_neg (show ¬ (bytes_used % SQUASHFS_PADDING ≠ 0) from
        fun hcon => hcon hm)]
      refine congrArg Except.ok ?_
      rw [hpad] at hm ⊢
      omega
    · rw [if_pos hm, Nat.mod_eq_of_lt hb]
      refine congrArg Except.ok ?_
      rw [hpad] at hm ⊢
      omega
  · intro hm
    unfold get_squashfs_len
    rw [if_neg (show ¬ (EfiStatus.success.isError = true) by decide),
      if_neg (show ¬ (SQUASHFS_MAGIC ≠ SQUASHFS_MAGIC) by simp),
      if_neg (by omega)]
  · intro ds
    unfold verity_tree_size c9_verity_tree_size_claim
    rw [verity_size_loop_eq_level_sum ds (verity_tree_blocks ds 0) 0 0
      (Nat.le_refl _)]
    have harg : verity_tree_blocks ds 0 =
        DIV_ROUND_UP (DIV_ROUND_UP ds VERITY_BLOCK_SIZE)
          VERITY_HASHES_PER_BLOCK := rfl
    rw [harg, Nat.zero_add]
  · unfold get_fs_hash_len
    rw [Nat.mod_eq_of_lt hf]
    omega

/-- Witness for the amended C9 at `bytes_used = 4097` and
`fs_len = 8192`. -/
theorem c9_amended_hasher_sizes_witness :
    (get_squashfs_len EfiStatus.success SQUASHFS_MAGIC 4097 =
      Except.ok (((4097 + SQUASHFS_PADDING - 1) / SQUASHFS_PADDING) *
        SQUASHFS_PADDING)) ∧
    ((4097 : Nat) % SQUASHFS_PADDING = 0 →
      get_squashfs_len EfiStatus.success SQUASHFS_MAGIC 4097 =
        Except.ok 4097) ∧
    (∀ ds, verity_tree_size ds = c9_verity_tree_size_claim ds) ∧
    (get_fs_hash_len 8192 =
      8192 + verity_tree_size 8192 + VERITY_METADATA_SIZE) := by
  have hb : (4097 : Nat) + SQUASHFS_PADDING < UINT64_MOD := by decide
  have hf : (8192 : Nat) + (verity_tree_size 8192 + VERITY_METADATA_SIZE) <
      UINT64_MOD := by
    have h1 : verity_size_loop 8192 0 0 = 1 := by
      unfold verity_size_loop
      rw [dif_neg (show ¬ verity_tree_blocks 8192 0 > 1 by decide)]
      decide
    have h2 : verity_tree_size 8192 = 4096 := by
      unfold verity_tree_size
      rw [h1]
      decide
    rw [h2]
    decide
  exact c9_amended_hasher_sizes 4097 8192 hb hf

/-- The boot verification states (`BOOT_STATE_GREEN` /
`BOOT_STATE_YELLOW` / `BOOT_STATE_RED` from `security.h`, named by the
spec's green/yellow/red attestation classification). -/
inductive BootState
  | GREEN
  | YELLOW
  | RED
  deriving DecidableEq, Repr

/-- Oracle environment for `verify_android_boot_image`: the parse
results of the header, boot signature and OEM certificate, the opaque
verification oracles (`RSA_verify` through `check_bootimage`,
`X509_verify`), the embedded-certificate presence, the auxiliary
OpenSSL steps of the endorsement check, and the `stra_to_str`
conversion of the target string. -/
structure VerifyEnv where
  inputsValid : Bool
  hdrOk : Bool
  sigOk : Bool
  oemCertOk : Bool
  oemVerifyOk : Bool
  hasEmbCert : Bool
  embVerifyOk : Bool
  oemKeyOk : Bool
  digestOk : Bool
  certSigOk : Bool
  targetConvOk : Bool
  deriving DecidableEq, Repr

/-- The `done:` epilogue of `verify_android_boot_image`: convert the
authenticated `target` attribute; a failed conversion downgrades the
state to `RED`. -/
def verify_done (env : VerifyEnv) (state : BootState) : BootState :=
  if !env.targetConvOk then BootState.RED else state

/-- `verify_android_boot_image` from `security.c`, with `verify_state`
initialised to `RED`: NULL inputs, a bad header, a missing or
unparseable signature or an unparseable OEM certificate exit `RED`
without the target conversion; a successful OEM verification reaches
`done` as `GREEN`; otherwise (`check_bootimage` only ever returns
`EFI_SUCCESS` or `EFI_ACCESS_DENIED`) a missing embedded certificate or
a failed embedded verification reaches `done` as `RED`; a verified
embedded certificate reaches `done` as `GREEN` when the OEM key check
(`get_rsa_pubkey`, `add_digest`, `X509_verify`) endorses it and
`YELLOW` when not. -/
def verify_android_boot_image (env : VerifyEnv) : BootState :=
  if !env.inputsValid then BootState.RED
  else if !env.hdrOk then BootState.RED
  else if !env.sigOk then BootState.RED
  else if !env.oemCertOk then BootState.RED
  else if env.oemVerifyOk then verify_done env BootState.GREEN
  else if !env.hasEmbCert then verify_done env BootState.RED
  else if !env.embVerifyOk then verify_done env BootState.RED
  else if !(env.oemKeyOk && env.digestOk && env.certSigOk) then
    verify_done env BootState.YELLOW
  else verify_done env BootState.GREEN

/-- Written from the claim's words: a parseable, signed image whose
signature verifies against the OEM certificate is `GREEN`; else one
verifying against an OEM-endorsed embedded certificate is `GREEN`; else
one verifying against a non-endorsed embedded certificate is `YELLOW`;
every other case (bad magic, missing or unparseable signature, failed
verification, unconvertible target) is `RED`. -/
def c4_classification (env : VerifyEnv) : BootState :=
  if env.inputsValid && env.hdrOk && env.sigOk && env.oemCertOk &&
      env.targetConvOk then
    if env.oemVerifyOk then BootState.GREEN
    else if env.hasEmbCert && env.embVerifyOk &&
        (env.oemKeyOk && env.digestOk && env.certSigOk) then BootState.GREEN
    else if env.hasEmbCert && env.embVerifyOk then BootState.YELLOW
    else BootState.RED
  else BootState.RED

/-- C4: `verify_android_boot_image` classifies every input exactly as
the claim states: OEM-verified images are `GREEN`, images verified by an
OEM-endorsed embedded certificate are `GREEN`, images verified by a
non-endorsed embedded certificate are `YELLOW`, and everything else —
parse failures, failed verification, or an unconvertible target — is
`RED`. -/
theorem c4_verify_classification (env : VerifyEnv) :
    verify_android_boot_image env = c4_classification env := by
  obtain ⟨b1, b2, b3, b4, b5, b6, b7, b8, b9, b10, b11⟩ := env
  revert b1 b2 b3 b4 b5 b6 b7 b8 b9 b10 b11
  decide

end Kernelflinger
